import Mathlib

/-!
Verification of the skunk NewRelic plugin agent.

The metric algebra is embedded from the canonical metrics file (the later,
Merge-bearing version of the two shapes present in the repository history).
Go float64 arithmetic is modelled exactly over ℚ; Go int over ℤ.
-/

namespace Skunk

/-- RangeMetric is any metric that covers a range of values: total sum, count,
min, max and sum of squares of all recorded values. -/
structure RangeMetric where
  total : ℚ
  count : ℤ
  min : ℚ
  max : ℚ
  square : ℚ
deriving DecidableEq

/-- A Metric is either a ScalarMetric (a single float64 observation) or a
RangeMetric. The Go interface has exactly these two implementations in the
package, so the embedding is a closed sum. -/
inductive Metric where
  | scalar (value : ℚ)
  | range (r : RangeMetric)
deriving DecidableEq

/-- ScalarMetric.Add: adding to a scalar produces a two-sample range. -/
def ScalarMetric.Add (s value : ℚ) : Metric :=
  .range { total := s + value, count := 2, min := Min.min value s,
           max := Max.max value s, square := s ^ 2 + value ^ 2 }

/-- RangeMetric.Add: folds one more value into the five running aggregates. -/
def RangeMetric.Add (r : RangeMetric) (value : ℚ) : Metric :=
  .range { total := r.total + value, count := r.count + 1, min := Min.min value r.min,
           max := Max.max value r.max, square := r.square + value ^ 2 }

/-- Dispatch of the Go interface method Add over the two implementations. -/
def Metric.Add : Metric → ℚ → Metric
  | .scalar s, value => ScalarMetric.Add s value
  | .range r, value => RangeMetric.Add r value

/-- The one-sample RangeMetric a ScalarMetric promotes itself to before
merging (the argument of value.Merge inside ScalarMetric.Merge). -/
def promoteScalar (s : ℚ) : RangeMetric :=
  { total := s, count := 1, min := s, max := s, square := s ^ 2 }

/-- RangeMetric.Merge: the type switch on the other metric. The Go default
branch (an unknown third implementation) is unreachable in the closed sum. -/
def RangeMetric.Merge (r : RangeMetric) : Metric → Metric
  | .scalar o =>
    .range { total := r.total + o, count := r.count + 1,
             min := Min.min r.min o, max := Max.max r.max o,
             square := r.square + o ^ 2 }
  | .range o =>
    .range { total := r.total + o.total, count := r.count + o.count,
             min := Min.min r.min o.min, max := Max.max r.max o.max,
             square := r.square + o.square }

/-- Number of scalar constructors among a metric, the termination measure for
the scalar-side double dispatch. -/
def Metric.scalarCount : Metric → Nat
  | .scalar _ => 1
  | .range _ => 0

/-- Dispatch of the Go interface method Merge: ScalarMetric.Merge defers to
value.Merge applied to the scalar promoted to a one-sample range, while
RangeMetric.Merge performs the merge directly. -/
def Metric.Merge : Metric → Metric → Metric
  | .scalar s, value => Metric.Merge value (.range (promoteScalar s))
  | .range r, value => RangeMetric.Merge r value
termination_by m value => m.scalarCount + value.scalarCount
decreasing_by simp [Metric.scalarCount]

/-- Componentwise combination of two ranges: sums totals, counts and sums of
squares, and takes elementwise min and max. -/
def RangeMetric.combine (a b : RangeMetric) : RangeMetric :=
  { total := a.total + b.total, count := a.count + b.count,
    min := Min.min a.min b.min, max := Max.max a.max b.max,
    square := a.square + b.square }

/-- View of a metric as a range: a scalar is a one-sample range. -/
def Metric.toRange : Metric → RangeMetric
  | .scalar s => promoteScalar s
  | .range r => r

/-! Float64 semantics of the merge algebra. A float64 value is a rational
exactly representable in binary64; roundB64 is IEEE-754 round-to-nearest,
ties-to-even at 53-bit precision with gradual underflow below 2^(-1022).
Infinities, NaN and exponent overflow are outside the model; the metrics
exercised below lie among small normal values where this rounding is the
whole float64 story. -/

/-- Round a rational to the nearest integer, ties to even. -/
def rndHalfEven (x : ℚ) : ℤ :=
  let f := ⌊x⌋
  let frac := x - f
  if frac < 1 / 2 then f
  else if 1 / 2 < frac then f + 1
  else if f % 2 = 0 then f else f + 1

/-- Multiply a rational by an integer power of two. -/
def mulPow2 (q : ℚ) (e : ℤ) : ℚ :=
  if 0 ≤ e then q * (2 : ℚ) ^ e.toNat else q / (2 : ℚ) ^ (-e).toNat

/-- IEEE-754 binary64 rounding of an exact rational: round to the nearest
multiple of the ulp at the value's magnitude, ties to even; the ulp exponent
is floor(log2 q) - 52, clamped below at -1074 for subnormals. -/
def roundB64 (q : ℚ) : ℚ :=
  if q = 0 then 0
  else
    let e : ℤ := Max.max (Int.log 2 |q| - 52) (-1074)
    mulPow2 ((rndHalfEven (mulPow2 q (-e)) : ℤ) : ℚ) e

/-- float64 addition: the exact sum, rounded. -/
def fadd (a b : ℚ) : ℚ := roundB64 (a + b)

/-- math.Pow(f, 2) modelled as the correctly rounded square of f. -/
def fpow2 (a : ℚ) : ℚ := roundB64 (a * a)

/-- The one-sample RangeMetric a ScalarMetric promotes itself to before
merging, under float64 semantics (its Square is math.Pow(f, 2)). -/
def fpromote (s : ℚ) : RangeMetric :=
  { total := s, count := 1, min := s, max := s, square := fpow2 s }

/-- RangeMetric.Merge under float64 semantics: the same type switch as the
exact model, with the Total and Square sums performed by float64 addition. -/
def RangeMetric.FMerge (r : RangeMetric) : Metric → Metric
  | .scalar o =>
    .range { total := fadd r.total o, count := r.count + 1,
             min := Min.min r.min o, max := Max.max r.max o,
             square := fadd r.square (fpow2 o) }
  | .range o =>
    .range { total := fadd r.total o.total, count := r.count + o.count,
             min := Min.min r.min o.min, max := Max.max r.max o.max,
             square := fadd r.square o.square }

/-- The Merge dispatch under float64 semantics: a ScalarMetric defers to the
other operand merged with its one-sample float promotion, exactly as in the
exact model. -/
def Metric.FMerge : Metric → Metric → Metric
  | .scalar s, value => Metric.FMerge value (.range (fpromote s))
  | .range r, value => RangeMetric.FMerge r value
termination_by m value => m.scalarCount + value.scalarCount
decreasing_by simp [Metric.scalarCount]

/-- Componentwise float64 combination of two ranges. -/
def RangeMetric.fcombine (a b : RangeMetric) : RangeMetric :=
  { total := fadd a.total b.total, count := a.count + b.count,
    min := Min.min a.min b.min, max := Max.max a.max b.max,
    square := fadd a.square b.square }

/-- View of a metric as a float-semantics range. -/
def Metric.toFRange : Metric → RangeMetric
  | .scalar s => fpromote s
  | .range r => r

/-! Error taxonomy (error.go). The codes follow the iota block. -/

def ErrNameTooLong : Nat := 1
def ErrNoName : Nat := 2
def ErrNoGUID : Nat := 3
def ErrNoAPIKey : Nat := 4
def ErrNoHost : Nat := 5
def ErrNoVersion : Nat := 6
def ErrNotRunning : Nat := 7
def ErrNilOpReceived : Nat := 8
def ErrEmptyPayload : Nat := 9
def ErrBadPayload : Nat := 10
def ErrForbidden : Nat := 11
def ErrBadRequest : Nat := 12
def ErrBodyTooLarge : Nat := 13
def ErrEncodingJSON : Nat := 14
def errNoMetrics : Nat := 15
def errMustRetry : Nat := 16
def errShuttingDown : Nat := 17

/-- A Go error value as the agent can observe it: a skunk Error built by mkerr
(carrying its code), the fmt.Errorf value of statusError's default branch
(carrying the unexpected status verbatim), or an error from the HTTP client. -/
inductive AgentError where
  | skunk (code : Nat)
  | unexpectedStatus (code : Nat)
  | transport
deriving DecidableEq

/-- iserr: true exactly when the error is a skunk Error with the given code
(the type assertion fails on nil, transport and fmt.Errorf errors). -/
def iserr (e : Option AgentError) (code : Nat) : Bool :=
  match e with
  | some (.skunk c) => c == code
  | _ => false

/-- statusError (agent.go): classifies a response status code into an error,
or nil for 2xx. -/
def statusError (code : Nat) : Option AgentError :=
  if 200 ≤ code ∧ code < 300 then none
  else if code = 400 then some (.skunk ErrBadPayload)
  else if code = 403 then some (.skunk ErrForbidden)
  else if code = 404 then some (.skunk ErrBadRequest)
  else if code = 405 then some (.skunk ErrBadRequest)
  else if code = 413 then some (.skunk ErrBodyTooLarge)
  else if 500 ≤ code ∧ code < 600 then some (.skunk errMustRetry)
  else some (.unexpectedStatus code)

/-! Agent data model and runloop (agent.go). time.Time instants and
time.Duration values are modelled as ℤ; a component's start field is
Option ℤ with none standing for the zero time (start.IsZero). -/

/-- AgentRep: immutable identity of the reporting process. -/
structure AgentRep where
  host : String
  pid : ℤ
  version : String
deriving DecidableEq

/-- A Component owned by the agent: its metrics map (association list keyed by
metric name), the snapshot duration, and the window start. -/
structure ComponentState where
  name : String
  guid : String
  duration : ℤ
  metrics : List (String × Metric)
  start : Option ℤ
deriving DecidableEq

/-- Body: the agent descriptor plus the agent's components. -/
structure BodyState where
  agent : AgentRep
  components : List ComponentState
deriving DecidableEq

/-- The outcome of the HTTP POST as the transport reports it: a response with
a status code, or a client error with no response. -/
inductive SendResult where
  | status (code : Nat)
  | netError
deriving DecidableEq

/-- Agent.clear: resets every component to a pristine state — a fresh empty
metrics map, zero duration, and the zero window-start time. -/
def Agent.clear (cs : List ComponentState) : List ComponentState :=
  cs.map fun c => { c with metrics := [], duration := 0, start := none }

/-- The per-component step of Agent.getPayload: a component with an empty
metrics map or a zero start is skipped; otherwise a copy is made whose
duration is the snapshot time minus the window start, clamped to zero when
negative. -/
def snapshotComponent (fromTime : ℤ) (c : ComponentState) : Option ComponentState :=
  match c.start with
  | none => none
  | some st =>
    if c.metrics.isEmpty then none
    else
      let d := fromTime - st
      some { c with duration := if d < 0 then 0 else d }

/-- Agent.getPayload: builds the outgoing body from copies of the eligible
components; when none is eligible it fails with errNoMetrics. The JSON and
gzip encoding of the body is I/O and not modelled; this captures which
components are included and with what duration. -/
def getPayload (fromTime : ℤ) (b : BodyState) : Except AgentError BodyState :=
  let comps := b.components.filterMap (snapshotComponent fromTime)
  if comps.isEmpty then .error (.skunk errNoMetrics)
  else .ok { b with components := comps }

/-- Agent.sendRequest: builds the payload (errNoMetrics is swallowed — nothing
to do), POSTs it, and classifies the result: a transport error is returned
as-is, status 200 returns nil, and any other status goes through statusError.
The compression-fallback retry only fires on encoding I/O errors, which the
pure model cannot produce. -/
def sendRequest (fromTime : ℤ) (b : BodyState) (resp : SendResult) : Option AgentError :=
  match getPayload fromTime b with
  | .error e => if e = .skunk errNoMetrics then none else some e
  | .ok _ =>
    match resp with
    | .netError => some .transport
    | .status code => if code = 200 then none else statusError code

/-- The runloop-owned state of an Agent: its body, last stored error, last
successful poll time, the pending-retry flag, whether the retry timer has been
allocated, and whether the ops channel has been closed. -/
structure AgentState where
  body : BodyState
  err : Option AgentError
  lastPoll : ℤ
  retryNeeded : Bool
  timerSet : Bool
  opsClosed : Bool
deriving DecidableEq

/-- trySend (the closure inside Agent.run): on success clears the pending
retry, records the poll time and clears all components; on errMustRetry arms
the retry timer and sets the pending-retry flag; any other error is stored as
the agent's last error. -/
def trySend (s : AgentState) (fromTime : ℤ) (resp : SendResult) : AgentState :=
  match sendRequest fromTime s.body resp with
  | none =>
    { s with retryNeeded := false, lastPoll := fromTime,
             body := { s.body with components := Agent.clear s.body.components } }
  | some e =>
    if e = .skunk errMustRetry then { s with timerSet := true, retryNeeded := true }
    else { s with err := some e }

/-- shutdown (the opFunc): performs one final send; an errMustRetry outcome is
only diagnosed and the payload dropped, any other error is stored as the last
error; the ops channel is then closed. The op returns errShuttingDown, which
makes Agent.run return. -/
def shutdownStep (s : AgentState) (now : ℤ) (resp : SendResult) : AgentState :=
  let flushErr := sendRequest now s.body resp
  let s' :=
    if iserr flushErr errMustRetry then s
    else
      match flushErr with
      | some e => { s with err := some e }
      | none => s
  { s' with opsClosed := true }

/-- The events Agent.run multiplexes over: the retry timer firing, the cadence
ticker firing, and ops received on the channel (shutdown and the error read).
Events that reach sendRequest carry the transport's answer. -/
inductive Event where
  | retryFired (fromTime : ℤ) (resp : SendResult)
  | tick (fromTime : ℤ) (resp : SendResult)
  | opShutdown (now : ℤ) (resp : SendResult)
  | opGetErr
deriving DecidableEq

/-- Result of one iteration of the Agent.run select loop: the successor state,
whether sendRequest was invoked, and whether the loop returned. -/
structure StepResult where
  state : AgentState
  sendAttempted : Bool
  exited : Bool
deriving DecidableEq

/-- One iteration of the select loop in Agent.run: a retry firing always calls
trySend; a cadence tick calls trySend only when no retry is pending; the
shutdown op flushes, closes the ops channel and exits the loop (its
errShuttingDown return value is matched by iserr in run); the error-read op
only reports the stored error. -/
def runStep (s : AgentState) (e : Event) : StepResult :=
  match e with
  | .retryFired t resp => { state := trySend s t resp, sendAttempted := true, exited := false }
  | .tick t resp =>
    if s.retryNeeded then { state := s, sendAttempted := false, exited := false }
    else { state := trySend s t resp, sendAttempted := true, exited := false }
  | .opShutdown now resp =>
    { state := shutdownStep s now resp, sendAttempted := true, exited := true }
  | .opGetErr => { state := s, sendAttempted := false, exited := false }

/-- Agent.Err: a round-trip op that reads the stored last error. -/
def Agent.Err (s : AgentState) : Option AgentError := s.err

/-- Agent.Close: reads the last error with Err, then queues the shutdown op;
the value returned to the caller is the error read before the shutdown flush
runs. -/
def Agent.Close (s : AgentState) (now : ℤ) (resp : SendResult) :
    Option AgentError × AgentState :=
  (Agent.Err s, (runStep s (.opShutdown now resp)).state)

/-- A concrete agent descriptor used to evaluate the model on closed inputs. -/
def sampleRep : AgentRep := { host := "h1", pid := 42, version := "1.0" }

/-- A component holding one recorded metric with its window started. -/
def sampleComponent : ComponentState :=
  { name := "cache", guid := "GUID-1", duration := 0,
    metrics := [("hits", .scalar 1)], start := some 3 }

/-- A component with no metrics and an unset window start. -/
def emptyComponent : ComponentState :=
  { name := "svc", guid := "GUID-A", duration := 0, metrics := [], start := none }

/-- A body whose only component is ineligible for sending. -/
def emptyBody : BodyState := { agent := sampleRep, components := [emptyComponent] }

/-- A concrete agent state with one sendable component and no stored error. -/
def sampleState : AgentState :=
  { body := { agent := sampleRep, components := [sampleComponent] },
    err := none, lastPoll := 0, retryNeeded := false, timerSet := false,
    opsClosed := false }

/-- The sample state with a retry pending. -/
def pendingState : AgentState := { sampleState with retryNeeded := true }

lemma RangeMetric.combine_comm (a b : RangeMetric) : a.combine b = b.combine a := by
  cases a; cases b
  simp [RangeMetric.combine, add_comm, min_comm, max_comm]

lemma RangeMetric.combine_assoc (a b c : RangeMetric) :
    (a.combine b).combine c = a.combine (b.combine c) := by
  cases a; cases b; cases c
  simp [RangeMetric.combine, add_assoc, min_assoc, max_assoc]

lemma RangeMetric.merge_range (r o : RangeMetric) :
    RangeMetric.Merge r (.range o) = .range (r.combine o) := rfl

lemma RangeMetric.merge_scalar (r : RangeMetric) (o : ℚ) :
    RangeMetric.Merge r (.scalar o) = .range (r.combine (promoteScalar o)) := rfl

/-- Any merge in the closed algebra normalises to the componentwise
combination of the two operands viewed as ranges. -/
lemma Metric.merge_eq_combine (x y : Metric) :
    Metric.Merge x y = .range (x.toRange.combine y.toRange) := by
  cases x with
  | range r =>
    cases y with
    | scalar o => simp [Metric.Merge, Metric.toRange, RangeMetric.merge_scalar]
    | range o => simp [Metric.Merge, Metric.toRange, RangeMetric.merge_range]
  | scalar s =>
    cases y with
    | scalar o =>
      simp [Metric.Merge, Metric.toRange, RangeMetric.merge_range]
    | range o =>
      simp [Metric.Merge, Metric.toRange, RangeMetric.merge_range,
        RangeMetric.combine_comm o (promoteScalar s)]

/-- C1: metric merge is commutative: merging ScalarMetric a with ScalarMetric b
yields the same RangeMetric as merging ScalarMetric b with ScalarMetric a, and
a Scalar merged with a Range yields the same Range as the reverse order. -/
theorem merge_comm_scalar_range :
    (∀ a b : ℚ, Metric.Merge (.scalar a) (.scalar b) =
      Metric.Merge (.scalar b) (.scalar a)) ∧
    (∀ (a : ℚ) (r : RangeMetric),
      Metric.Merge (.scalar a) (.range r) = Metric.Merge (.range r) (.scalar a)) := by
  constructor
  · intro a b
    rw [Metric.merge_eq_combine, Metric.merge_eq_combine, RangeMetric.combine_comm]
  · intro a r
    rw [Metric.merge_eq_combine, Metric.merge_eq_combine, RangeMetric.combine_comm]

lemma fadd_comm (a b : ℚ) : fadd a b = fadd b a := by
  unfold fadd
  rw [add_comm]

lemma RangeMetric.fcombine_comm (a b : RangeMetric) : a.fcombine b = b.fcombine a := by
  cases a; cases b
  simp [RangeMetric.fcombine, fadd_comm, add_comm, min_comm, max_comm]

lemma RangeMetric.fmerge_range (r o : RangeMetric) :
    RangeMetric.FMerge r (.range o) = .range (r.fcombine o) := rfl

lemma RangeMetric.fmerge_scalar (r : RangeMetric) (o : ℚ) :
    RangeMetric.FMerge r (.scalar o) = .range (r.fcombine (fpromote o)) := rfl

/-- Any float-semantics merge normalises to the componentwise float64
combination of the two operands viewed as ranges. -/
lemma Metric.fmerge_eq_fcombine (x y : Metric) :
    Metric.FMerge x y = .range (x.toFRange.fcombine y.toFRange) := by
  cases x with
  | range r =>
    cases y with
    | scalar o => simp [Metric.FMerge, Metric.toFRange, RangeMetric.fmerge_scalar]
    | range o => simp [Metric.FMerge, Metric.toFRange, RangeMetric.fmerge_range]
  | scalar s =>
    cases y with
    | scalar o =>
      simp [Metric.FMerge, Metric.toFRange, RangeMetric.fmerge_range]
    | range o =>
      simp [Metric.FMerge, Metric.toFRange, RangeMetric.fmerge_range,
        RangeMetric.fcombine_comm o (fpromote s)]

lemma log_one_add_small {q : ℚ} (h0 : 0 ≤ q) (h1 : q < 1) :
    Int.log 2 |(1 + q : ℚ)| = 0 := by
  rw [abs_of_pos (by linarith), Int.log_of_one_le_right _ (by linarith)]
  have hfl : ⌊(1 + q : ℚ)⌋₊ = 1 := by
    rw [Nat.floor_eq_iff (by linarith)]
    constructor <;> push_cast <;> linarith
  rw [hfl, Nat.log_one_right]
  rfl

lemma fadd_one_eps : fadd 1 (1 / 2 ^ 53) = 1 := by
  unfold fadd roundB64
  rw [if_neg (by norm_num)]
  have hlog : Int.log 2 |(1 + 1 / 2 ^ 53 : ℚ)| = 0 :=
    log_one_add_small (by norm_num) (by norm_num)
  have he : Max.max (Int.log 2 |(1 + 1 / 2 ^ 53 : ℚ)| - 52) (-1074) = -52 := by
    rw [hlog]
    decide
  simp only [he]
  have hm1 : mulPow2 (1 + 1 / 2 ^ 53 : ℚ) (-(-52)) = 2 ^ 52 + 1 / 2 := by
    unfold mulPow2
    rw [if_pos (by norm_num)]
    have ht : (- -(52 : ℤ)).toNat = 52 := rfl
    rw [ht]
    ring_nf
  rw [hm1]
  have hf : ⌊(2 ^ 52 + 1 / 2 : ℚ)⌋ = 2 ^ 52 := by
    rw [Int.floor_eq_iff]
    constructor <;> push_cast <;> norm_num
  have hr : rndHalfEven (2 ^ 52 + 1 / 2 : ℚ) = 2 ^ 52 := by
    unfold rndHalfEven
    simp only [hf]
    rw [if_neg (by push_cast; norm_num), if_neg (by push_cast; norm_num),
      if_pos (by decide)]
  rw [hr]
  unfold mulPow2
  rw [if_neg (by norm_num)]
  have ht : (- -(52 : ℤ)).toNat = 52 := rfl
  rw [ht]
  push_cast
  norm_num

lemma fadd_eps_eps : fadd (1 / 2 ^ 53) (1 / 2 ^ 53) = 1 / 2 ^ 52 := by
  unfold fadd roundB64
  have hsum : (1 / 2 ^ 53 + 1 / 2 ^ 53 : ℚ) = 1 / 2 ^ 52 := by
    ring_nf
  rw [hsum, if_neg (by norm_num)]
  have hlog : Int.log 2 |(1 / 2 ^ 52 : ℚ)| = -52 := by
    rw [abs_of_pos (by norm_num), Int.log_of_right_le_one _ (by norm_num)]
    have hinv : ((1 / 2 ^ 52 : ℚ))⁻¹ = ((2 ^ 52 : ℕ) : ℚ) := by push_cast; norm_num
    rw [hinv, Nat.ceil_natCast, Nat.clog_pow 2 52 (by norm_num)]
    decide
  have he : Max.max (Int.log 2 |(1 / 2 ^ 52 : ℚ)| - 52) (-1074) = -104 := by
    rw [hlog]
    decide
  simp only [he]
  have hm1 : mulPow2 (1 / 2 ^ 52 : ℚ) (-(-104)) = 2 ^ 52 := by
    unfold mulPow2
    rw [if_pos (by norm_num)]
    have ht : (- -(104 : ℤ)).toNat = 104 := rfl
    rw [ht]
    ring_nf
  rw [hm1]
  have hf : ⌊(2 ^ 52 : ℚ)⌋ = 2 ^ 52 := by
    rw [Int.floor_eq_iff]
    constructor <;> push_cast <;> norm_num
  have hr : rndHalfEven (2 ^ 52 : ℚ) = 2 ^ 52 := by
    unfold rndHalfEven
    simp only [hf]
    rw [if_pos (by push_cast; norm_num)]
  rw [hr]
  unfold mulPow2
  rw [if_neg (by norm_num)]
  have ht : (- -(104 : ℤ)).toNat = 104 := rfl
  rw [ht]
  push_cast
  ring_nf

lemma fadd_one_small : fadd 1 (1 / 2 ^ 52) = 1 + 1 / 2 ^ 52 := by
  unfold fadd roundB64
  rw [if_neg (by norm_num)]
  have hlog : Int.log 2 |(1 + 1 / 2 ^ 52 : ℚ)| = 0 :=
    log_one_add_small (by norm_num) (by norm_num)
  have he : Max.max (Int.log 2 |(1 + 1 / 2 ^ 52 : ℚ)| - 52) (-1074) = -52 := by
    rw [hlog]
    decide
  simp only [he]
  have hm1 : mulPow2 (1 + 1 / 2 ^ 52 : ℚ) (-(-52)) = 2 ^ 52 + 1 := by
    unfold mulPow2
    rw [if_pos (by norm_num)]
    have ht : (- -(52 : ℤ)).toNat = 52 := rfl
    rw [ht]
    ring_nf
  rw [hm1]
  have hf : ⌊(2 ^ 52 + 1 : ℚ)⌋ = 2 ^ 52 + 1 := by
    rw [Int.floor_eq_iff]
    constructor <;> push_cast <;> norm_num
  have hr : rndHalfEven (2 ^ 52 + 1 : ℚ) = 2 ^ 52 + 1 := by
    unfold rndHalfEven
    simp only [hf]
    rw [if_pos (by push_cast; norm_num)]
  rw [hr]
  unfold mulPow2
  rw [if_neg (by norm_num)]
  have ht : (- -(52 : ℤ)).toNat = 52 := rfl
  rw [ht]
  push_cast
  ring_nf

/-- C2 counterexample: under float64 semantics, merging the samples 1.0,
2^(-53) and 2^(-53) yields different metrics depending on grouping: in the
left grouping both total additions round down to 1.0, while the right
grouping first forms 2^(-52) exactly, whose addition to 1.0 is also exact, so
the totals are 1.0 and 1.0 + 2^(-52). -/
theorem merge_assoc_float_counterexample :
    Metric.FMerge (Metric.FMerge (.scalar 1) (.scalar (1 / 2 ^ 53)))
        (.scalar (1 / 2 ^ 53)) ≠
      Metric.FMerge (.scalar 1)
        (Metric.FMerge (.scalar (1 / 2 ^ 53)) (.scalar (1 / 2 ^ 53))) := by
  have hL : (((fpromote 1).fcombine (fpromote (1 / 2 ^ 53))).fcombine
      (fpromote (1 / 2 ^ 53))).total = 1 := by
    show fadd (fadd 1 (1 / 2 ^ 53)) (1 / 2 ^ 53) = 1
    rw [fadd_one_eps, fadd_one_eps]
  have hR : ((fpromote 1).fcombine ((fpromote (1 / 2 ^ 53)).fcombine
      (fpromote (1 / 2 ^ 53)))).total = 1 + 1 / 2 ^ 52 := by
    show fadd 1 (fadd (1 / 2 ^ 53) (1 / 2 ^ 53)) = 1 + 1 / 2 ^ 52
    rw [fadd_eps_eps, fadd_one_small]
  simp only [Metric.fmerge_eq_fcombine, Metric.toFRange]
  intro h
  injection h with h'
  have hTot := congrArg RangeMetric.total h'
  rw [hL, hR] at hTot
  norm_num at hTot

/-- C2 (amended): metric merge is associative in the exact-arithmetic reading
of the algebra, and under float64 semantics the count, min and max fields —
which the merge computes without rounding — are associative regardless of
grouping; bit-exact associativity of the rounded total and sum-of-squares
fields fails, as the counterexample shows. -/
theorem merge_assoc_exact_and_float_fields :
    (∀ x y z : Metric,
      Metric.Merge (Metric.Merge x y) z = Metric.Merge x (Metric.Merge y z)) ∧
    (∀ x y z : Metric,
      (Metric.FMerge (Metric.FMerge x y) z).toFRange.count =
        (Metric.FMerge x (Metric.FMerge y z)).toFRange.count ∧
      (Metric.FMerge (Metric.FMerge x y) z).toFRange.min =
        (Metric.FMerge x (Metric.FMerge y z)).toFRange.min ∧
      (Metric.FMerge (Metric.FMerge x y) z).toFRange.max =
        (Metric.FMerge x (Metric.FMerge y z)).toFRange.max) := by
  constructor
  · intro x y z
    simp only [Metric.merge_eq_combine, Metric.toRange, RangeMetric.combine_assoc]
  · intro x y z
    simp only [Metric.fmerge_eq_fcombine, Metric.toFRange, RangeMetric.fcombine]
    exact ⟨add_assoc _ _ _, min_assoc _ _ _, max_assoc _ _ _⟩

/-- C6: Add on a ScalarMetric s yields a RangeMetric with total s plus v,
count 2, min and max of the two values and the sum of their squares; Add on a
RangeMetric yields a RangeMetric whose count is the original count plus one. -/
theorem add_scalar_makes_pair_add_range_increments :
    (∀ s value : ℚ, Metric.Add (.scalar s) value =
      .range { total := s + value, count := 2, min := Min.min s value,
               max := Max.max s value, square := s ^ 2 + value ^ 2 }) ∧
    (∀ (r : RangeMetric) (value : ℚ), ∃ r' : RangeMetric,
      Metric.Add (.range r) value = .range r' ∧ r'.count = r.count + 1) := by
  constructor
  · intro s value
    simp [Metric.Add, ScalarMetric.Add, min_comm, max_comm]
  · intro r value
    exact ⟨_, rfl, rfl⟩

/-- C3: the status-to-outcome classification is a pure function of the status
code: 200-299 is success, 400 bad payload, 403 forbidden, 404 and 405 the
generic bad request, 413 body too large, 500-599 the retryable error, and any
other status an unclassified error carrying the status verbatim. -/
theorem statusError_full_mapping (code : Nat) :
    (200 ≤ code ∧ code < 300 → statusError code = none) ∧
    (code = 400 → statusError code = some (.skunk ErrBadPayload)) ∧
    (code = 403 → statusError code = some (.skunk ErrForbidden)) ∧
    ((code = 404 ∨ code = 405) → statusError code = some (.skunk ErrBadRequest)) ∧
    (code = 413 → statusError code = some (.skunk ErrBodyTooLarge)) ∧
    (500 ≤ code ∧ code < 600 → statusError code = some (.skunk errMustRetry)) ∧
    (¬(200 ≤ code ∧ code < 300) → code ≠ 400 → code ≠ 403 → code ≠ 404 →
      code ≠ 405 → code ≠ 413 → ¬(500 ≤ code ∧ code < 600) →
      statusError code = some (.unexpectedStatus code)) := by
  refine ⟨fun h => ?_, fun h => ?_, fun h => ?_, fun h => ?_, fun h => ?_, fun h => ?_,
    fun h1 h2 h3 h4 h5 h6 h7 => ?_⟩
  · simp [statusError, h]
  · subst h; decide
  · subst h; decide
  · rcases h with h | h <;> subst h <;> decide
  · subst h; decide
  · have hA : ¬(200 ≤ code ∧ code < 300) := by omega
    have hB : code ≠ 400 := by omega
    have hC : code ≠ 403 := by omega
    have hD : code ≠ 404 := by omega
    have hE : code ≠ 405 := by omega
    have hF : code ≠ 413 := by omega
    simp [statusError, hA, hB, hC, hD, hE, hF, h]
  · simp [statusError, h1, h2, h3, h4, h5, h6, h7]

/-- Witness for C3: the mapping evaluated at 204, 400, 503 and 418. -/
theorem statusError_full_mapping_witness :
    statusError 204 = none ∧
    statusError 400 = some (.skunk ErrBadPayload) ∧
    statusError 503 = some (.skunk errMustRetry) ∧
    statusError 418 = some (.unexpectedStatus 418) :=
  ⟨(statusError_full_mapping 204).1 (by omega),
   (statusError_full_mapping 400).2.1 rfl,
   (statusError_full_mapping 503).2.2.2.2.2.1 (by omega),
   (statusError_full_mapping 418).2.2.2.2.2.2 (by omega) (by omega) (by omega)
     (by omega) (by omega) (by omega) (by omega)⟩

/-- C4: after every send attempt that succeeds, every component owned by the
agent has an empty metrics map, a zeroed duration and an unset window start,
and the pending-retry flag is cleared. -/
theorem successful_send_clears (s : AgentState) (t : ℤ) (resp : SendResult)
    (h : sendRequest t s.body resp = none) :
    (∀ c ∈ (trySend s t resp).body.components,
      c.metrics = [] ∧ c.duration = 0 ∧ c.start = none) ∧
    (trySend s t resp).retryNeeded = false := by
  have hts : trySend s t resp =
      { s with retryNeeded := false, lastPoll := t,
               body := { s.body with components := Agent.clear s.body.components } } := by
    unfold trySend
    rw [h]
  rw [hts]
  refine ⟨fun c hc => ?_, rfl⟩
  simp only [Agent.clear, List.mem_map] at hc
  obtain ⟨c0, _, rfl⟩ := hc
  exact ⟨rfl, rfl, rfl⟩

/-- Witness for C4: a successful send (status 200) from the sample state. -/
theorem successful_send_clears_witness :
    (∀ c ∈ (trySend sampleState 5 (.status 200)).body.components,
      c.metrics = [] ∧ c.duration = 0 ∧ c.start = none) ∧
    (trySend sampleState 5 (.status 200)).retryNeeded = false :=
  successful_send_clears sampleState 5 (.status 200) (by decide)

/-- C5: snapshot construction excludes each component whose metrics map is
empty or whose window start is unset, and when no eligible component remains
the send attempt reports errNoMetrics, which sendRequest swallows — so it is
neither stored as an error nor treated as a retryable failure. -/
theorem payload_excludes_empty_components (t : ℤ) (b : BodyState) (resp : SendResult) :
    (∀ c : ComponentState, (c.metrics = [] ∨ c.start = none) →
      snapshotComponent t c = none) ∧
    ((∀ c ∈ b.components, c.metrics = [] ∨ c.start = none) →
      getPayload t b = .error (.skunk errNoMetrics) ∧
      sendRequest t b resp = none ∧
      (∀ s : AgentState, s.body = b →
        (trySend s t resp).err = s.err ∧ (trySend s t resp).retryNeeded = false)) := by
  have hexc : ∀ c : ComponentState, (c.metrics = [] ∨ c.start = none) →
      snapshotComponent t c = none := by
    rintro ⟨nm, gd, du, ms, st⟩ hc
    rcases hc with hm | hs
    · simp only at hm
      subst hm
      cases st <;> simp [snapshotComponent]
    · simp only at hs
      subst hs
      simp [snapshotComponent]
  refine ⟨hexc, fun hall => ?_⟩
  have hnil : b.components.filterMap (snapshotComponent t) = [] :=
    List.filterMap_eq_nil_iff.mpr fun c hc => hexc c (hall c hc)
  have hgp : getPayload t b = .error (.skunk errNoMetrics) := by
    unfold getPayload
    rw [hnil]
    rfl
  have hsr : sendRequest t b resp = none := by
    unfold sendRequest
    rw [hgp]
    rfl
  refine ⟨hgp, hsr, fun s hs => ?_⟩
  have hts : trySend s t resp =
      { s with retryNeeded := false, lastPoll := t,
               body := { s.body with components := Agent.clear s.body.components } } := by
    unfold trySend
    rw [hs, hsr]
  rw [hts]
  exact ⟨rfl, rfl⟩

/-- Witness for C5: a body whose only component has no metrics and no window
start yields errNoMetrics from getPayload and a nil error from sendRequest. -/
theorem payload_excludes_empty_components_witness :
    getPayload 5 emptyBody = .error (.skunk errNoMetrics) ∧
    sendRequest 5 emptyBody (.status 200) = none :=
  ⟨((payload_excludes_empty_components 5 emptyBody (.status 200)).2 (by decide)).1,
   ((payload_excludes_empty_components 5 emptyBody (.status 200)).2 (by decide)).2.1⟩

/-- C7: every component in a built snapshot has a non-negative duration equal
to the snapshot time minus its window start, clamped to zero when the snapshot
time precedes the window start. -/
theorem snapshot_duration_clamped (t : ℤ) (cs : List ComponentState) :
    ∀ c ∈ cs.filterMap (snapshotComponent t), 0 ≤ c.duration ∧
      ∃ st : ℤ, c.start = some st ∧
        (st ≤ t → c.duration = t - st) ∧ (t < st → c.duration = 0) := by
  intro c hc
  obtain ⟨a, _, ha⟩ := List.mem_filterMap.mp hc
  obtain ⟨nm, gd, du, ms, st⟩ := a
  cases st with
  | none => simp [snapshotComponent] at ha
  | some st =>
    by_cases hm : ms.isEmpty <;> simp [snapshotComponent, hm] at ha
    subst ha
    refine ⟨?_, st, rfl, fun hle => ?_, fun hlt => ?_⟩ <;>
      simp only [] <;> split <;> omega

/-- Witness for C7: the snapshot of the sample component at time 10 carries
duration 7 with window start 3. -/
theorem snapshot_duration_clamped_witness :
    0 ≤ (ComponentState.mk "cache" "GUID-1" 7 [("hits", .scalar 1)] (some 3)).duration ∧
    ∃ st : ℤ,
      (ComponentState.mk "cache" "GUID-1" 7 [("hits", .scalar 1)] (some 3)).start = some st ∧
      (st ≤ 10 →
        (ComponentState.mk "cache" "GUID-1" 7 [("hits", .scalar 1)] (some 3)).duration
          = 10 - st) ∧
      (10 < st →
        (ComponentState.mk "cache" "GUID-1" 7 [("hits", .scalar 1)] (some 3)).duration
          = 0) :=
  snapshot_duration_clamped 10 [sampleComponent]
    (ComponentState.mk "cache" "GUID-1" 7 [("hits", .scalar 1)] (some 3)) (by decide)

/-- C8: whenever a retry is pending, a cadence tick performs no send attempt
and leaves the state unchanged (the tick is skipped), while the retry timer
event is the one that performs the send; the error-read op sends nothing
either. -/
theorem tick_skipped_when_retry_pending (s : AgentState) (t : ℤ) (resp : SendResult)
    (h : s.retryNeeded = true) :
    runStep s (.tick t resp) =
      { state := s, sendAttempted := false, exited := false } ∧
    (runStep s (.retryFired t resp)).sendAttempted = true ∧
    (runStep s .opGetErr).sendAttempted = false := by
  refine ⟨?_, rfl, rfl⟩
  simp [runStep, h]

/-- Witness for C8: the pending-retry sample state skips the tick and sends on
the retry event. -/
theorem tick_skipped_when_retry_pending_witness :
    runStep pendingState (.tick 5 (.status 200)) =
      { state := pendingState, sendAttempted := false, exited := false } ∧
    (runStep pendingState (.retryFired 5 (.status 200))).sendAttempted = true ∧
    (runStep pendingState .opGetErr).sendAttempted = false :=
  tick_skipped_when_retry_pending pendingState 5 (.status 200) rfl

/-- C9: the shutdown op performs one final send; a retryable (5xx) failure is
only diagnosed and leaves the stored last error unchanged; any other failure
is stored as the last error; in all cases the ops channel is closed and the
runloop exits. -/
theorem shutdown_final_flush (s : AgentState) (now : ℤ) (resp : SendResult) :
    (iserr (sendRequest now s.body resp) errMustRetry = true →
      (runStep s (.opShutdown now resp)).state.err = s.err) ∧
    (∀ e : AgentError, sendRequest now s.body resp = some e →
      e ≠ .skunk errMustRetry →
      (runStep s (.opShutdown now resp)).state.err = some e) ∧
    (runStep s (.opShutdown now resp)).state.opsClosed = true ∧
    (runStep s (.opShutdown now resp)).exited = true := by
  refine ⟨fun h => ?_, fun e he hne => ?_, ?_, rfl⟩
  · simp [runStep, shutdownStep, h]
  · have hne' : iserr (some e) errMustRetry = false := by
      cases e with
      | skunk c =>
        have : c ≠ errMustRetry := fun hc => hne (by rw [hc])
        simpa [iserr] using this
      | unexpectedStatus c => rfl
      | transport => rfl
    simp [runStep, shutdownStep, he, hne']
  · simp [runStep, shutdownStep]

/-- Witness for C9: a retryable 503 on the shutdown flush of the sample state
leaves the stored error unchanged, and a 400 flush failure is stored. -/
theorem shutdown_final_flush_witness :
    (runStep sampleState (.opShutdown 5 (.status 503))).state.err = sampleState.err ∧
    (runStep sampleState (.opShutdown 5 (.status 400))).state.err =
      some (.skunk ErrBadPayload) ∧
    (runStep sampleState (.opShutdown 5 (.status 503))).state.opsClosed = true ∧
    (runStep sampleState (.opShutdown 5 (.status 503))).exited = true :=
  ⟨(shutdown_final_flush sampleState 5 (.status 503)).1 (by decide),
   (shutdown_final_flush sampleState 5 (.status 400)).2.1 (.skunk ErrBadPayload)
     (by decide) (by decide),
   (shutdown_final_flush sampleState 5 (.status 503)).2.2.1,
   (shutdown_final_flush sampleState 5 (.status 503)).2.2.2⟩

/-- C10: Close returns the last error as read before the shutdown flush runs;
an error produced by the flush itself is stored into the agent's last-error
field only afterwards, so Close never returns it, and the agent ends with its
ops channel closed (inert). -/
theorem close_returns_preflush_error (s : AgentState) (now : ℤ) (resp : SendResult) :
    (Agent.Close s now resp).1 = s.err ∧
    (∀ e : AgentError, sendRequest now s.body resp = some e →
      e ≠ .skunk errMustRetry →
      (Agent.Close s now resp).2.err = some e) ∧
    (Agent.Close s now resp).2.opsClosed = true := by
  refine ⟨rfl, fun e he hne => ?_, ?_⟩
  · have hne' : iserr (some e) errMustRetry = false := by
      cases e with
      | skunk c =>
        have : c ≠ errMustRetry := fun hc => hne (by rw [hc])
        simpa [iserr] using this
      | unexpectedStatus c => rfl
      | transport => rfl
    simp [Agent.Close, Agent.Err, runStep, shutdownStep, he, hne']
  · simp [Agent.Close, Agent.Err, runStep, shutdownStep]

/-- Witness for C10: closing the sample state over a flush that fails with 400
returns the old nil error while the bad-payload error ends up stored. -/
theorem close_returns_preflush_error_witness :
    (Agent.Close sampleState 5 (.status 400)).1 = none ∧
    (Agent.Close sampleState 5 (.status 400)).2.err = some (.skunk ErrBadPayload) ∧
    (Agent.Close sampleState 5 (.status 400)).2.opsClosed = true :=
  ⟨(close_returns_preflush_error sampleState 5 (.status 400)).1,
   (close_returns_preflush_error sampleState 5 (.status 400)).2.1
     (.skunk ErrBadPayload) (by decide) (by decide),
   (close_returns_preflush_error sampleState 5 (.status 400)).2.2⟩

end Skunk
